import Mathlib

/-!
Verification of the DAH-extractor text-processing core.

This file shallowly embeds the repository's parsing and conversion
functions (parser.js, the PDF-oriented parser, converter.js) in Lean 4.
JavaScript strings are modelled as `String`/`List Char`, JS numbers as
exact rationals `ℚ` (the numeric literals handled by this code base are
small decimal values; IEEE-754 artifacts and the `Infinity`/`NaN`
literals of `parseFloat` are outside the modelled input language), and
JS regular expressions are hand-rolled backtracking matchers that follow
the semantics of the concrete patterns appearing in the source.
-/

namespace Dah

/-! ## JavaScript string primitives -/

/-- Characters matched by the JS `\s` class (ASCII fragment) and removed
by `String.prototype.trim`. -/
def isJsWs (c : Char) : Bool :=
  c = ' ' || c = '\t' || c = '\n' || c = '\r' ||
  c = Char.ofNat 11 || c = Char.ofNat 12

/-- Model of `String.prototype.trim` on a char list. -/
def jsTrimList (cs : List Char) : List Char :=
  ((cs.dropWhile isJsWs).reverse.dropWhile isJsWs).reverse

/-- Model of `String.prototype.trim`. -/
def jsTrim (s : String) : String :=
  String.mk (jsTrimList s.data)

/-- ASCII-case lowering, the fragment of `toLowerCase` the inputs use. -/
def lowerChar (c : Char) : Char := c.toLower

/-- ASCII-case raising, the fragment of `toUpperCase` the inputs use. -/
def upperChar (c : Char) : Char := c.toUpper

/-- Model of `String.prototype.toLowerCase` (ASCII fragment). -/
def toLowerStr (s : String) : String := String.mk (s.data.map lowerChar)

/-- Model of `String.prototype.toUpperCase` (ASCII fragment). -/
def toUpperStr (s : String) : String := String.mk (s.data.map upperChar)

/-- Split a char list at every occurrence of the separator character,
like `String.prototype.split` with a single-char separator (always
returns at least one piece; keeps empty pieces). -/
def splitCharAux (sep : Char) : List Char → List Char → List String
  | [], acc => [String.mk acc.reverse]
  | c :: rest, acc =>
    if c = sep then String.mk acc.reverse :: splitCharAux sep rest []
    else splitCharAux sep rest (c :: acc)

/-- Model of `content.split(sep)` for a one-character separator. -/
def jsSplit (s : String) (sep : Char) : List String :=
  splitCharAux sep s.data []

/-- Split on any of the given separator characters, modelling
`split(/[-\/]/)` style calls. -/
def splitAnyAux (seps : List Char) : List Char → List Char → List String
  | [], acc => [String.mk acc.reverse]
  | c :: rest, acc =>
    if seps.contains c then String.mk acc.reverse :: splitAnyAux seps rest []
    else splitAnyAux seps rest (c :: acc)

/-- Model of `s.split(/[-\/]/)`. -/
def jsSplitAny (s : String) (seps : List Char) : List String :=
  splitAnyAux seps s.data []

/-- Successive suffixes of a list (including the full list and `[]`). -/
def suffixes : List Char → List (List Char)
  | [] => [[]]
  | c :: rest => (c :: rest) :: suffixes rest

/-- Substring containment on char lists, modelling `String.prototype.includes`. -/
def containsSubList (hay needle : List Char) : Bool :=
  (suffixes hay).any (fun t => needle.isPrefixOf t)

/-- Model of `hay.includes(needle)`. -/
def containsSub (hay needle : String) : Bool :=
  containsSubList hay.data needle.data

/-- Model of `hay.startsWith(needle)`. -/
def jsStartsWith (hay needle : String) : Bool :=
  needle.data.isPrefixOf hay.data

/-! ## JS numeric lexing: `parseFloat` and `parseInt` -/

/-- Numeric value of a (non-empty) list of decimal digit chars. -/
def digitsToNat (cs : List Char) : Nat :=
  cs.foldl (fun acc c => acc * 10 + (c.toNat - 48)) 0

/-! Exact rational arithmetic.  The core field operations on `ℚ`
(`Rat.add`, `Rat.mul`, `Rat.neg`, `Rat.inv`) are `@[irreducible]`,
which blocks kernel evaluation of concrete runs of the model; the
operations below compute the same values through `Rat.divInt`, which
does reduce.  Claim statements still phrase target values with the
ordinary field operations and are bridged by `norm_num`. -/

/-- Exact rational addition (kernel-computable; equals `a + b`). -/
def qAdd (a b : ℚ) : ℚ :=
  Rat.divInt (a.num * (b.den : ℤ) + b.num * (a.den : ℤ)) ((a.den : ℤ) * (b.den : ℤ))

/-- Exact rational negation (kernel-computable; equals `-a`). -/
def qNeg (a : ℚ) : ℚ := Rat.divInt (-a.num) (a.den : ℤ)

/-- Exact rational multiplication (kernel-computable; equals `a * b`). -/
def qMul (a b : ℚ) : ℚ :=
  Rat.divInt (a.num * b.num) ((a.den : ℤ) * (b.den : ℤ))

/-- Exact rational division (kernel-computable; equals `a / b`, with the
same `x / 0 = 0` convention). -/
def qDiv (a b : ℚ) : ℚ :=
  Rat.divInt (a.num * (b.den : ℤ)) ((a.den : ℤ) * b.num)

/-- Power of ten with integer exponent (kernel-computable). -/
def qTenPow (e : ℤ) : ℚ :=
  if 0 ≤ e then Rat.divInt (((10 : ℕ) ^ e.toNat : ℕ) : ℤ) 1
  else Rat.divInt 1 (((10 : ℕ) ^ (-e).toNat : ℕ) : ℤ)

/-- Floor of a rational (kernel-computable; the denominator is
positive, so Euclidean division is floor division). -/
def qFloor (a : ℚ) : ℤ := Int.ediv a.num (a.den : ℤ)

/-- Fractional value contributed by digits after a decimal point. -/
def fracValue (cs : List Char) : ℚ :=
  Rat.divInt (digitsToNat cs : ℤ) (((10 : ℕ) ^ cs.length : ℕ) : ℤ)

/-- Leading-prefix float lexer modelling `parseFloat` (finite decimal
fragment: optional sign, digits, optional fraction, optional exponent;
the `Infinity` literal is outside the modelled input language).
Returns `none` exactly when `parseFloat` would return `NaN`. -/
def parseFloatPrefix (s : String) : Option ℚ :=
  let cs := s.data.dropWhile isJsWs
  let (neg, cs) : Bool × List Char :=
    match cs with
    | '-' :: rest => (true, rest)
    | '+' :: rest => (false, rest)
    | _ => (false, cs)
  let (intDigits, cs) := cs.span Char.isDigit
  let (fracDigits, cs) :=
    match cs with
    | '.' :: rest => rest.span Char.isDigit
    | _ => ([], cs)
  if intDigits.isEmpty && fracDigits.isEmpty then none
  else
    let mantissa : ℚ := qAdd (digitsToNat intDigits : ℚ) (fracValue fracDigits)
    let expo : ℤ :=
      match cs with
      | 'e' :: rest => parseExp rest
      | 'E' :: rest => parseExp rest
      | _ => 0
    let magnitude := qMul mantissa (qTenPow expo)
    some (if neg then qNeg magnitude else magnitude)
where
  /-- Exponent part `[+-]?\d+`; an incomplete exponent contributes 0
  (prefix lexing stops before it). -/
  parseExp (cs : List Char) : ℤ :=
    let (esign, cs) : ℤ × List Char :=
      match cs with
      | '-' :: rest => (-1, rest)
      | '+' :: rest => (1, rest)
      | _ => (1, cs)
    let (ds, _) := cs.span Char.isDigit
    if ds.isEmpty then 0 else esign * (digitsToNat ds : ℤ)

/-- Leading-prefix integer lexer modelling `parseInt(x, 10)`-style calls
(decimal fragment; the `0x` radix prefix is outside the modelled input
language). `none` models a `NaN` result. -/
def parseIntPrefix (s : String) : Option ℤ :=
  let cs := s.data.dropWhile isJsWs
  let (sign, cs) : ℤ × List Char :=
    match cs with
    | '-' :: rest => (-1, rest)
    | '+' :: rest => (1, rest)
    | _ => (1, cs)
  let (ds, _) := cs.span Char.isDigit
  if ds.isEmpty then none else some (sign * (digitsToNat ds : ℤ))

/-- Model of the idiom `parseInt(x) || 0` applied to a possibly-absent
string (`none` models reading an absent property, i.e. `undefined`). -/
def parseIntOr0 (s : Option String) : ℤ :=
  match s with
  | none => 0
  | some str => (parseIntPrefix str).getD 0

/-! ## JSON syntactic validity (for the format detector)

`JSON.parse(content)` succeeds exactly on syntactically valid JSON text.
The detector only needs the boolean outcome, modelled by a fuelled
recursive-descent recogniser for the JSON grammar. -/

/-- JSON insignificant whitespace. -/
def isJsonWs (c : Char) : Bool :=
  c = ' ' || c = '\t' || c = '\n' || c = '\r'

/-- Hexadecimal digit test for `\uXXXX` escapes. -/
def isHexDigit (c : Char) : Bool :=
  c.isDigit || ('a' ≤ c && c ≤ 'f') || ('A' ≤ c && c ≤ 'F')

/-- Consume a JSON string body after the opening quote; returns the rest
after the closing quote. -/
def jsonStringRest : Nat → List Char → Option (List Char)
  | 0, _ => none
  | _ + 1, [] => none
  | fuel + 1, c :: rest =>
    if c = Char.ofNat 34 then some rest
    else if c = '\\' then
      match rest with
      | [] => none
      | e :: rest2 =>
        if e = Char.ofNat 34 || e = '\\' || e = '/' || e = 'b' || e = 'f' ||
           e = 'n' || e = 'r' || e = 't' then jsonStringRest fuel rest2
        else if e = 'u' then
          match rest2 with
          | h1 :: h2 :: h3 :: h4 :: rest3 =>
            if isHexDigit h1 && isHexDigit h2 && isHexDigit h3 && isHexDigit h4 then
              jsonStringRest fuel rest3
            else none
          | _ => none
        else none
    else if c.toNat < 32 then none
    else jsonStringRest fuel rest

/-- Consume an optional exponent part of a JSON number. -/
def jsonExpRest (cs : List Char) : Option (List Char) :=
  match cs with
  | e :: rest =>
    if e = 'e' || e = 'E' then
      let rest2 := match rest with | '+' :: r => r | '-' :: r => r | r => r
      match rest2 with
      | d :: r => if d.isDigit then some (r.dropWhile Char.isDigit) else none
      | [] => none
    else some (e :: rest)
  | [] => some []

/-- Consume a JSON number; returns the rest, or `none` if no valid
number starts here. -/
def jsonNumberRest (cs : List Char) : Option (List Char) :=
  let cs := match cs with | '-' :: rest => rest | _ => cs
  let intPart : Option (List Char) :=
    match cs with
    | '0' :: rest => some rest
    | c :: rest => if c.isDigit then some (rest.dropWhile Char.isDigit) else none
    | [] => none
  match intPart with
  | none => none
  | some cs =>
    let cs :=
      match cs with
      | '.' :: d :: rest =>
        if d.isDigit then rest.dropWhile Char.isDigit else '.' :: d :: rest
      | other => other
    jsonExpRest cs

mutual

/-- Consume one JSON value; fuelled recursion (fuel bounds nesting). -/
def jsonValueRest : Nat → List Char → Option (List Char)
  | 0, _ => none
  | fuel + 1, cs =>
    let cs := cs.dropWhile isJsonWs
    match cs with
    | [] => none
    | c :: rest =>
      if c = Char.ofNat 34 then jsonStringRest (fuel + 1) rest
      else if c = '{' then jsonMembersRest fuel rest true
      else if c = '[' then jsonElementsRest fuel rest true
      else if ['t', 'r', 'u', 'e'].isPrefixOf cs then some (cs.drop 4)
      else if ['f', 'a', 'l', 's', 'e'].isPrefixOf cs then some (cs.drop 5)
      else if ['n', 'u', 'l', 'l'].isPrefixOf cs then some (cs.drop 4)
      else jsonNumberRest cs

/-- Remainder of a JSON object after `{` (when `first`) or after a
member separator comma. -/
def jsonMembersRest : Nat → List Char → Bool → Option (List Char)
  | 0, _, _ => none
  | fuel + 1, cs, first =>
    let cs2 := cs.dropWhile isJsonWs
    match cs2 with
    | [] => none
    | c :: rest =>
      if c = '}' then (if first then some rest else none)
      else if c = Char.ofNat 34 then
        match jsonStringRest (fuel + 1) rest with
        | none => none
        | some afterKey =>
          match afterKey.dropWhile isJsonWs with
          | ':' :: afterColon =>
            match jsonValueRest fuel afterColon with
            | none => none
            | some afterVal =>
              match afterVal.dropWhile isJsonWs with
              | '}' :: rest2 => some rest2
              | ',' :: rest2 => jsonMembersRest fuel rest2 false
              | _ => none
          | _ => none
      else none

/-- Remainder of a JSON array after `[` (when `first`) or after an
element separator comma. -/
def jsonElementsRest : Nat → List Char → Bool → Option (List Char)
  | 0, _, _ => none
  | fuel + 1, cs, first =>
    let cs2 := cs.dropWhile isJsonWs
    match cs2 with
    | [] => none
    | c :: rest =>
      if c = ']' then (if first then some rest else none)
      else
        match jsonValueRest fuel cs2 with
        | none => none
        | some afterVal =>
          match afterVal.dropWhile isJsonWs with
          | ']' :: rest2 => some rest2
          | ',' :: rest2 => jsonElementsRest fuel rest2 false
          | _ => none

end

/-- Syntactic validity of a whole JSON document: models whether
`JSON.parse(content)` succeeds. -/
def jsonValid (s : String) : Bool :=
  match jsonValueRest (s.data.length + 1) s.data with
  | none => false
  | some rest => (rest.dropWhile isJsonWs).isEmpty

/-! ## Format detection (parser.js `detectFileFormat`) -/

/-- The detector's closed result set. -/
inductive Format where
  | csv
  | structuredText
  | json
  | generic
deriving DecidableEq, Repr

/-- Model of `detectFileFormat(content)`: JSON fast path (start brace or
bracket and a successful strict parse), then the CSV header heuristic,
then the structured-text marker substrings, else generic. -/
def detectFileFormat (content : String) : Format :=
  let t := jsTrim content
  if (jsStartsWith t "\x7b" || jsStartsWith t "[") && jsonValid content then
    Format.json
  else
    let lines := jsSplit content '\n'
    let firstLine := lines.headD ""
    if lines.length > 1 && containsSub firstLine "," &&
        (let f := toLowerStr firstLine
         containsSub f "airspace" || containsSub f "latitude" || containsSub f "name") then
      Format.csv
    else if containsSub content "AIRSPACE" || containsSub content "Airspace" ||
        containsSub content "UPPER LIMIT" || containsSub content "LOWER LIMIT" then
      Format.structuredText
    else
      Format.generic

/-! ## Shared coordinate primitive (parser.js `parseCoordinate`)

The DMS branch models the regex
`/(\d+)[°\s]+(\d+)['\s]+(\d+\.?\d*)["\s]*([NSEW])/i` as a leftmost
search.  All character classes here are disjoint from their successors,
so greedy matching without backtracking is exact. -/

/-- Degree-or-whitespace class `[°\s]`. -/
def isDegWs (c : Char) : Bool := c = '°' || isJsWs c

/-- Apostrophe-or-whitespace class `['\s]`. -/
def isAposWs (c : Char) : Bool := c = Char.ofNat 39 || isJsWs c

/-- Quote-or-whitespace class `["\s]`. -/
def isQuoteWs (c : Char) : Bool := c = Char.ofNat 34 || isJsWs c

/-- Compass letter class `[NSEW]` under the `i` flag. -/
def isNSEWi (c : Char) : Bool :=
  let u := upperChar c
  u = 'N' || u = 'S' || u = 'E' || u = 'W'

/-- Lexes `\d+\.?\d*` (digits, optional point, more digits) and returns
its exact rational value with the rest, or `none`. -/
def lexDigitsDotDigits (cs : List Char) : Option (ℚ × List Char) :=
  let (ds, rest) := cs.span Char.isDigit
  if ds.isEmpty then none
  else
    match rest with
    | '.' :: rest2 =>
      let (fs, rest3) := rest2.span Char.isDigit
      some (qAdd (digitsToNat ds : ℚ) (fracValue fs), rest3)
    | _ => some ((digitsToNat ds : ℚ), rest)

/-- Attempt the DMS pattern at the head of the list: returns
`(degrees, minutes, seconds, direction)` on success. -/
def tryDmsAt (cs : List Char) : Option (Nat × Nat × ℚ × Char) :=
  let (dDigits, cs) := cs.span Char.isDigit
  if dDigits.isEmpty then none else
  let (sep1, cs) := cs.span isDegWs
  if sep1.isEmpty then none else
  let (mDigits, cs) := cs.span Char.isDigit
  if mDigits.isEmpty then none else
  let (sep2, cs) := cs.span isAposWs
  if sep2.isEmpty then none else
  match lexDigitsDotDigits cs with
  | none => none
  | some (secs, cs) =>
    let cs := cs.dropWhile isQuoteWs
    match cs with
    | c :: _ => if isNSEWi c then some (digitsToNat dDigits, digitsToNat mDigits, secs, c) else none
    | [] => none

/-- Leftmost search for the DMS pattern (fuelled position scan). -/
def dmsSearchAux : Nat → List Char → Option (Nat × Nat × ℚ × Char)
  | 0, _ => none
  | _ + 1, [] => none
  | fuel + 1, l@(_ :: rest) =>
    match tryDmsAt l with
    | some r => some r
    | none => dmsSearchAux fuel rest

/-- Leftmost DMS match in a string, or `none`. -/
def dmsSearch (s : String) : Option (Nat × Nat × ℚ × Char) :=
  dmsSearchAux (s.data.length + 1) s.data

/-- Model of parser.js `parseCoordinate(coord)` on string input: trim,
try `parseFloat` (which succeeds on any leading numeric prefix), then
try the DMS regex, else 0. -/
def parseCoordinate (coord : String) : ℚ :=
  let str := jsTrim coord
  match parseFloatPrefix str with
  | some decimal => decimal
  | none =>
    match dmsSearch str with
    | some (degrees, minutes, seconds, dirChar) =>
      let direction := upperChar dirChar
      let decimal : ℚ := qAdd (qAdd (degrees : ℚ) (qDiv (minutes : ℚ) 60)) (qDiv seconds 3600)
      if direction = 'S' || direction = 'W' then qNeg decimal else decimal
    | none => 0

/-! ## CSV parsing (parser.js `parseCSVFormat` and helpers) -/

/-- One boundary vertex carried by a CSV row (`sequence` tags the
polygon ordering). -/
structure CsvBoundary where
  latitude : ℚ
  longitude : ℚ
  sequence : ℤ
deriving DecidableEq, Repr

/-- The airspace record built per CSV row (and returned merged).
`conditional` is `none` when the source stored the JS literal `false`
(the `|| false` default), `some s` for a truthy string value. -/
structure CsvAirspace where
  id : String
  name : String
  type : String
  boundaries : List CsvBoundary
  upperLimit : String
  lowerLimit : String
  conditional : Option String
deriving DecidableEq, Repr

/-- Model of `parseCSVLine`: split on commas with a `"`-toggled
in-quotes state (no escaped-quote doubling). -/
def parseCSVLine (line : String) : List String :=
  go line.data [] false []
where
  go : List Char → List Char → Bool → List String → List String
    | [], current, _, result => (result ++ [String.mk current.reverse])
    | c :: rest, current, inQuotes, result =>
      if c = Char.ofNat 34 then go rest current (!inQuotes) result
      else if c = ',' && !inQuotes then
        go rest [] inQuotes (result ++ [String.mk current.reverse])
      else go rest (c :: current) inQuotes result

/-- Heuristic header-to-role map of `mapColumnNames` (each field holds
the claiming header's name, or `none`). -/
structure ColumnMap where
  id : Option String := none
  name : Option String := none
  type : Option String := none
  latitude : Option String := none
  longitude : Option String := none
  upperLimit : Option String := none
  lowerLimit : Option String := none
  conditional : Option String := none
  sequence : Option String := none
deriving DecidableEq, Repr

/-- Model of `mapColumnNames(headers)`: case-insensitive substring
matching in declaration order; a later header overwrites an earlier
claim for the same role except for the guarded bare-`name` rule. -/
def mapColumnNames (headers : List String) : ColumnMap :=
  headers.foldl step {}
where
  step (m : ColumnMap) (header : String) : ColumnMap :=
    let lower := toLowerStr header
    if containsSub lower "airspace" && containsSub lower "id" then { m with id := some header }
    else if containsSub lower "airspace" && containsSub lower "name" then { m with name := some header }
    else if lower = "name" && m.name.isNone then { m with name := some header }
    else if containsSub lower "type" then { m with type := some header }
    else if containsSub lower "lat" then { m with latitude := some header }
    else if containsSub lower "lon" then { m with longitude := some header }
    else if containsSub lower "upper" then { m with upperLimit := some header }
    else if containsSub lower "lower" then { m with lowerLimit := some header }
    else if containsSub lower "conditional" then { m with conditional := some header }
    else if containsSub lower "sequence" then { m with sequence := some header }
    else m

/-- JS object built per row (`airspace[header] = values[index].trim()`);
a later duplicate header overwrites in place. -/
def objSet (m : List (String × String)) (k v : String) : List (String × String) :=
  if m.any (fun p => p.1 = k) then
    m.map (fun p => if p.1 = k then (p.1, v) else p)
  else m ++ [(k, v)]

/-- Property read on the row object. -/
def objGet (m : List (String × String)) (k : String) : Option String :=
  (m.find? (fun p => p.1 = k)).map (fun p => p.2)

/-- Reading `airspace[columnMap.role]`: absent role or absent key gives
`undefined`, modelled as `none`. -/
def roleGet (row : List (String × String)) (key : Option String) : Option String :=
  key.bind (objGet row)

/-- JS truthiness for an optional string (`undefined` and `""` falsy). -/
def truthyStr : Option String → Bool
  | none => false
  | some s => s ≠ ""

/-- `x || fallback` on an optional string value. -/
def jsOrStr (x : Option String) (fallback : String) : String :=
  match x with
  | some s => if s ≠ "" then s else fallback
  | none => fallback

/-- The structured airspace object built from one matching CSV data row
(index `i` is the 1-based line index used by the placeholder id). -/
def buildCsvAirspace (headers : List String) (cm : ColumnMap) (i : Nat)
    (values : List String) : CsvAirspace :=
  let row := (headers.zip values).foldl (fun m p => objSet m p.1 (jsTrim p.2)) []
  let boundaries :=
    if truthyStr (roleGet row cm.latitude) && truthyStr (roleGet row cm.longitude) then
      [{ latitude := parseCoordinate ((roleGet row cm.latitude).getD "")
         longitude := parseCoordinate ((roleGet row cm.longitude).getD "")
         sequence := parseIntOr0 (roleGet row cm.sequence) }]
    else []
  { id := jsOrStr (roleGet row cm.id) ("AIRSPACE_" ++ Nat.repr i)
    name := jsOrStr (roleGet row cm.name) "Unknown"
    type := jsOrStr (roleGet row cm.type) "UNKNOWN"
    boundaries := boundaries
    upperLimit := jsOrStr (roleGet row cm.upperLimit) "UNL"
    lowerLimit := jsOrStr (roleGet row cm.lowerLimit) "GND"
    conditional :=
      match roleGet row cm.conditional with
      | some s => if s ≠ "" then some s else none
      | none => none }

/-! ## Boundary merging (parser.js `mergeAirspaceBoundaries`)

`grouped` is a JS object keyed by airspace id; modelled as an
association list plus the ECMAScript own-property ordering (array-index
keys ascending first, then string keys in insertion order).  Node's
`Array.prototype.sort` is stable (ECMA-262), modelled by a stable
insertion sort. -/

/-- Stable insertion of `x` after every element with key `≤ key x`. -/
def insertLE (key : α → ℤ) (x : α) : List α → List α
  | [] => [x]
  | y :: ys => if key y ≤ key x then y :: insertLE key x ys else x :: y :: ys

/-- Stable ascending sort by an integer key (left fold of stable
insertions). -/
def stableSortByKey (key : α → ℤ) (l : List α) : List α :=
  l.foldl (fun acc x => insertLE key x acc) []

/-- ECMAScript array-index test for an object key: the canonical decimal
numeral of an integer below `2^32 - 1`. -/
def isArrayIndex (s : String) : Bool :=
  s = "0" ||
  (!s.data.isEmpty && s.data.all Char.isDigit && s.data.headD '0' ≠ '0' &&
    digitsToNat s.data < 4294967295)

/-- Own-property enumeration order of a JS object whose insertion order
is the list order: array-index keys ascending numerically, then the
remaining keys in insertion order. -/
def jsObjectValuesOrder (g : List (String × CsvAirspace)) : List (String × CsvAirspace) :=
  stableSortByKey (fun p => (digitsToNat p.1.data : ℤ))
      (g.filter (fun p => isArrayIndex p.1)) ++
    g.filter (fun p => !isArrayIndex p.1)

/-- One `forEach` step of `mergeAirspaceBoundaries`: create the group
entry on first sight (spread with empty boundaries), then push the row's
boundary points onto the group. -/
def groupStep (g : List (String × CsvAirspace)) (a : CsvAirspace) :
    List (String × CsvAirspace) :=
  let g1 :=
    if (g.find? (fun p => p.1 = a.id)).isSome then g
    else g ++ [(a.id, { a with boundaries := [] })]
  g1.map (fun p =>
    if p.1 = a.id then (p.1, { p.2 with boundaries := p.2.boundaries ++ a.boundaries })
    else p)

/-- Sort comparator key `(a.sequence || 0)`: the JS `||` maps only the
falsy number 0 to 0, so the key is the sequence itself. -/
def jsSortBySequence (bs : List CsvBoundary) : List CsvBoundary :=
  stableSortByKey (fun b => b.sequence) bs

/-- Model of `mergeAirspaceBoundaries(airspaces)`. -/
def mergeAirspaceBoundaries (airspaces : List CsvAirspace) : List CsvAirspace :=
  let grouped := airspaces.foldl groupStep []
  (jsObjectValuesOrder grouped).map
    (fun p => { p.2 with boundaries := jsSortBySequence p.2.boundaries })

/-! ## The CSV strategy (parser.js `parseCSVFormat`) -/

/-- Result payload of the CSV strategy (the `airspaces` field of the
`parsedData` accumulator; the other fields are untouched by this
strategy). -/
structure CsvParsed where
  airspaces : List CsvAirspace
deriving DecidableEq, Repr

/-- The non-blank lines kept by `parseCSVFormat`
(`content.split('\n').filter(line => line.trim())`). -/
def csvNonBlankLines (content : String) : List String :=
  (jsSplit content '\n').filter (fun l => jsTrim l ≠ "")

/-- The lowercased trimmed header cells of the first kept line. -/
def csvHeaders (lines : List String) : List String :=
  (jsSplit (lines.headD "") ',').map (fun h => toLowerStr (jsTrim h))

/-- The `for (let i = 1; ...)` row loop: rows whose field count differs
from the header count are skipped with `continue`. -/
def csvLoop (headers : List String) (cm : ColumnMap) : Nat → List String → List CsvAirspace
  | _, [] => []
  | i, l :: ls =>
    let values := parseCSVLine l
    if values.length ≠ headers.length then csvLoop headers cm (i + 1) ls
    else buildCsvAirspace headers cm i values :: csvLoop headers cm (i + 1) ls

/-- Model of `parseCSVFormat(content, parsedData)`; the thrown
`Error('CSV file must have headers and at least one data row')` is the
`Except.error` case. -/
def parseCSVFormat (content : String) : Except String CsvParsed :=
  let lines := csvNonBlankLines content
  if lines.length < 2 then
    Except.error "CSV file must have headers and at least one data row"
  else
    let headers := csvHeaders lines
    let cm := mapColumnNames headers
    Except.ok { airspaces := mergeAirspaceBoundaries (csvLoop headers cm 1 (lines.drop 1)) }

/-! ## Structured-text strategy (parser.js `parseStructuredText`) -/

/-- A decimal-degree vertex as produced by the parser.js strategies. -/
structure QPoint where
  latitude : ℚ
  longitude : ℚ
deriving DecidableEq, Repr

/-- The airspace record built by parser.js's structured-text and
generic strategies. -/
structure PAirspace where
  id : String
  name : String
  boundaries : List QPoint
  upperLimit : String
  lowerLimit : String
deriving DecidableEq, Repr

/-- Class `[A-Z0-9-]` (case-sensitive form). -/
def isIdChar (c : Char) : Bool := c.isUpper || c.isDigit || c = '-'

/-- Class `[A-Z0-9-]` under the `i` flag. -/
def isIdCharI (c : Char) : Bool := c.isUpper || c.isLower || c.isDigit || c = '-'

/-- Case-insensitive literal match; returns the rest on success. -/
def litCI (cs : List Char) (lit : List Char) : Option (List Char) :=
  match lit, cs with
  | [], rest => some rest
  | _ :: _, [] => none
  | l :: ls, c :: rest => if upperChar c = upperChar l then litCI rest ls else none

/-- Test for the title heuristic `/^[A-Z0-9-]+\s+[A-Z]/`. -/
def structTitleTest (cs : List Char) : Bool :=
  let (tok, r1) := cs.span isIdChar
  if tok.isEmpty then false
  else
    let (ws, r2) := r1.span isJsWs
    if ws.isEmpty then false
    else match r2 with
      | c :: _ => c.isUpper
      | [] => false

/-- Model of `extractAirspaceId(line)`: leading `[A-Z0-9-]+` run, else
`"UNKNOWN"`. -/
def extractAirspaceId (line : String) : String :=
  let (tok, _) := line.data.span isIdChar
  if tok.isEmpty then "UNKNOWN" else String.mk tok

/-- Tail alternation `(\s+UPPER|\s+LOWER|$)` of the name regex. -/
def nameTailTest (cs : List Char) : Bool :=
  (match (let (ws, r) := cs.span isJsWs
          if ws.isEmpty then none else litCI r ['U', 'P', 'P', 'E', 'R']) with
   | some _ => true
   | none => false) ||
  (match (let (ws, r) := cs.span isJsWs
          if ws.isEmpty then none else litCI r ['L', 'O', 'W', 'E', 'R']) with
   | some _ => true
   | none => false) ||
  cs.isEmpty

/-- Lazy `(.+?)` expansion for the name regex: shortest non-empty prefix
whose remainder satisfies the tail alternation. -/
def lazyNameLoop : Nat → List Char → List Char → Option (List Char)
  | 0, _, _ => none
  | _ + 1, _, [] => none
  | fuel + 1, acc, c :: rest =>
    if nameTailTest rest then some (acc ++ [c])
    else lazyNameLoop fuel (acc ++ [c]) rest

/-- Model of `extractAirspaceName(line)`
(`/^[A-Z0-9-]+\s+(.+?)(\s+UPPER|\s+LOWER|$)/i`). -/
def extractAirspaceName (line : String) : String :=
  let cs := line.data
  let (tok, r1) := cs.span isIdCharI
  if tok.isEmpty then "Unknown Airspace"
  else
    let (ws, r2) := r1.span isJsWs
    if ws.isEmpty then "Unknown Airspace"
    else match lazyNameLoop (r2.length + 1) [] r2 with
      | some grp => jsTrim (String.mk grp)
      | none => "Unknown Airspace"

/-- Search for `/UPPER[:\s]+([^\s]+)/i` style patterns: the keyword, one
or more colon/whitespace characters, then the captured non-space run. -/
def limitSearchAux (kw : List Char) : Nat → List Char → Option String
  | 0, _ => none
  | _ + 1, [] => none
  | fuel + 1, l@(_ :: rest) =>
    match
      (match litCI l kw with
       | none => none
       | some r1 =>
         let (sep, r2) := r1.span (fun c => c = ':' || isJsWs c)
         if sep.isEmpty then none
         else
           let (grp, _) := r2.span (fun c => !isJsWs c)
           if grp.isEmpty then none else some (String.mk grp)) with
    | some g => some g
    | none => limitSearchAux kw fuel rest

/-- Leftmost match of `/UPPER[:\s]+([^\s]+)/i`. -/
def upperSearch (s : String) : Option String :=
  limitSearchAux ['U', 'P', 'P', 'E', 'R'] (s.data.length + 1) s.data

/-- Leftmost match of `/LOWER[:\s]+([^\s]+)/i`. -/
def lowerSearch (s : String) : Option String :=
  limitSearchAux ['L', 'O', 'W', 'E', 'R'] (s.data.length + 1) s.data

/-- Raw lex of `-?\d+\.?\d*`: the matched slice and the rest. -/
def lexNumRaw (cs : List Char) : Option (List Char × List Char) :=
  let (neg, cs2) : List Char × List Char :=
    match cs with
    | '-' :: rest => (['-'], rest)
    | _ => ([], cs)
  let (ds, r1) := cs2.span Char.isDigit
  if ds.isEmpty then none
  else
    match r1 with
    | '.' :: r2 =>
      let (fs, r3) := r2.span Char.isDigit
      some (neg ++ ds ++ ['.'] ++ fs, r3)
    | _ => some (neg ++ ds, r1)

/-- Compass classes under the `i` flag. -/
def isNSi (c : Char) : Bool := upperChar c = 'N' || upperChar c = 'S'

/-- East-west class under the `i` flag. -/
def isEWi (c : Char) : Bool := upperChar c = 'E' || upperChar c = 'W'

/-- Attempt `(-?\d+\.?\d*)[°\s]+([NS])\s+(-?\d+\.?\d*)[°\s]+([EW])` (with
`i`) at the head of the list. -/
def tryStructCoordAt (cs : List Char) : Option (List Char × Char × List Char × Char) :=
  match lexNumRaw cs with
  | none => none
  | some (num1, r1) =>
    let (sep1, r2) := r1.span isDegWs
    if sep1.isEmpty then none else
    match r2 with
    | d1 :: r3 =>
      if !isNSi d1 then none else
      let (ws, r4) := r3.span isJsWs
      if ws.isEmpty then none else
      match lexNumRaw r4 with
      | none => none
      | some (num2, r5) =>
        let (sep2, r6) := r5.span isDegWs
        if sep2.isEmpty then none else
        match r6 with
        | d2 :: _ => if isEWi d2 then some (num1, d1, num2, d2) else none
        | [] => none
    | [] => none

/-- Leftmost-match search for the structured coordinate pattern. -/
def structCoordSearchAux : Nat → List Char → Option (List Char × Char × List Char × Char)
  | 0, _ => none
  | _ + 1, [] => none
  | fuel + 1, l@(_ :: rest) =>
    match tryStructCoordAt l with
    | some r => some r
    | none => structCoordSearchAux fuel rest

/-- Model of `extractCoordinates(line)`: first match of the coordinate
pattern, fed through `parseCoordinate` with the compass letter appended. -/
def extractCoordinates (line : String) : Option QPoint :=
  match structCoordSearchAux (line.data.length + 1) line.data with
  | some (num1, d1, num2, d2) =>
    some { latitude := parseCoordinate (String.mk (num1 ++ [d1]))
           longitude := parseCoordinate (String.mk (num2 ++ [d2])) }
  | none => none

/-- One line of `parseStructuredText`'s scan.  A title line flushes the
in-progress record unconditionally and starts a new one; the same line
then also passes through the limit/coordinate extraction. -/
def structStep (st : List PAirspace × Option PAirspace) (line : String) :
    List PAirspace × Option PAirspace :=
  let trimmed := jsTrim line
  if trimmed = "" then st
  else
    let (results, current) := st
    let (results, current) :=
      if structTitleTest trimmed.data then
        (results ++ current.toList,
         some { id := extractAirspaceId trimmed, name := extractAirspaceName trimmed,
                boundaries := [], upperLimit := "UNL", lowerLimit := "GND" })
      else (results, current)
    match current with
    | none => (results, none)
    | some c =>
      let c := match upperSearch trimmed with
        | some u => { c with upperLimit := u }
        | none => c
      let c := match lowerSearch trimmed with
        | some l => { c with lowerLimit := l }
        | none => c
      let c := match extractCoordinates trimmed with
        | some pt => { c with boundaries := c.boundaries ++ [pt] }
        | none => c
      (results, some c)

/-- Model of `parseStructuredText(content, parsedData)` (its `airspaces`
output). -/
def parseStructuredText (content : String) : List PAirspace :=
  let (results, current) := (jsSplit content '\n').foldl structStep ([], none)
  results ++ current.toList

/-! ## Generic fallback strategy (parser.js `parseGenericFormat`) -/

/-- Attempt the loose pair pattern
`(-?\d+\.?\d*)[°\s,]+([NSEW]?)\s*(-?\d+\.?\d*)[°\s,]+([NSEW]?)` (with
`gi`) at the head; returns the four captures and the rest after the
match. -/
def tryGenericAt (cs : List Char) :
    Option ((List Char × Option Char × List Char × Option Char) × List Char) :=
  match lexNumRaw cs with
  | none => none
  | some (num1, r1) =>
    let (sep1, r2) := r1.span (fun c => c = '°' || isJsWs c || c = ',')
    if sep1.isEmpty then none else
    let (d1, r3) : Option Char × List Char :=
      match r2 with
      | c :: rest => if isNSEWi c then (some c, rest) else (none, r2)
      | [] => (none, r2)
    let r4 := r3.dropWhile isJsWs
    match lexNumRaw r4 with
    | none => none
    | some (num2, r5) =>
      let (sep2, r6) := r5.span (fun c => c = '°' || isJsWs c || c = ',')
      if sep2.isEmpty then none else
      let (d2, r7) : Option Char × List Char :=
        match r6 with
        | c :: rest => if isNSEWi c then (some c, rest) else (none, r6)
        | [] => (none, r6)
      some ((num1, d1, num2, d2), r7)

/-- Global scan with the loose pair pattern (`matchAll` semantics:
leftmost, continue after each match). -/
def genericScanAux : Nat → List Char →
    List (List Char × Option Char × List Char × Option Char)
  | 0, _ => []
  | _ + 1, [] => []
  | fuel + 1, l@(_ :: rest) =>
    match tryGenericAt l with
    | some (m, after) => m :: genericScanAux fuel after
    | none => genericScanAux fuel rest

/-- Model of `parseGenericFormat(content, parsedData)` (its `airspaces`
output): every pattern match becomes a vertex of one synthetic record,
emitted only when at least one match was found. -/
def parseGenericFormat (content : String) : List PAirspace :=
  let boundaries :=
    (genericScanAux (content.data.length + 1) content.data).map
      (fun m =>
        { latitude := parseCoordinate (String.mk (m.1 ++ m.2.1.toList))
          longitude := parseCoordinate (String.mk (m.2.2.1 ++ m.2.2.2.toList))
          : QPoint })
  if boundaries.length > 0 then
    [{ id := "EXTRACTED_AIRSPACE", name := "Extracted from DAH",
       boundaries := boundaries, upperLimit := "UNL", lowerLimit := "GND" }]
  else []

/-! ## The PDF-oriented DAH parser (`parseAirspaceText` and helpers)

This is the second parser variant in the repository (the one wired to
`pdf-parse`).  Its title pattern
`/^([A-Z]{4}(?:-[A-Z]{4})?(?:\/[A-Z]{4})?)\/(.+?)(?:\s+CTA|CTR|TMA|CLASS)?\s*([A-Z]?\d+)?$/`
is modelled with explicit backtracking in the regex engine's attempt
order (greedy optional groups first, lazy middle group shortest
first). -/

/-- The intermediate airspace record of the DAH parser. -/
structure DahAirspace where
  id : String
  name : String
  locations : List String
  boundaries : List QPoint
  upperLimit : String
  lowerLimit : String
  controllingAuthority : Option String
  frequencies : List ℚ
  hoursOfOperation : Option String
deriving DecidableEq, Repr

/-- Exactly four consecutive uppercase letters. -/
def upper4 (cs : List Char) : Option (List Char × List Char) :=
  match cs with
  | a :: b :: c :: d :: rest =>
    if a.isUpper && b.isUpper && c.isUpper && d.isUpper then some ([a, b, c, d], rest)
    else none
  | _ => none

/-- Group-1 candidates `[A-Z]{4}(?:-[A-Z]{4})?(?:\/[A-Z]{4})?` in the
backtracking order of the greedy optional groups. -/
def titleGroup1Candidates (cs : List Char) : List (List Char × List Char) :=
  match upper4 cs with
  | none => []
  | some (c4, r0) =>
    let dashOpts : List (List Char × List Char) :=
      (match r0 with
       | '-' :: r1 =>
         match upper4 r1 with
         | some (d4, r2) => [(c4 ++ '-' :: d4, r2)]
         | none => []
       | _ => []) ++ [(c4, r0)]
    dashOpts.foldr
      (fun (g, r) acc =>
        (match r with
         | '/' :: r1 =>
           match upper4 r1 with
           | some (s4, r2) => [(g ++ '/' :: s4, r2)]
           | none => []
         | _ => []) ++ [(g, r)] ++ acc)
      []

/-- Tail `\s*([A-Z]?\d+)?$` after the optional keyword group: consumes
maximal whitespace, then the optional suffix capture must reach the end
of the line. -/
def titleTailEnd (cs : List Char) : Option String :=
  let cs2 := cs.dropWhile isJsWs
  match cs2 with
  | [] => some ""
  | c :: rest =>
    if c.isUpper && !rest.isEmpty && rest.all Char.isDigit then
      some (String.mk (c :: rest))
    else if !cs2.isEmpty && cs2.all Char.isDigit then
      some (String.mk cs2)
    else none

/-- Keyword alternation `(?:\s+CTA|CTR|TMA|CLASS)?` followed by the tail,
in the regex attempt order (alternatives first, then skipping the
group). -/
def titleTailMatch (cs : List Char) : Option String :=
  let wsCta : Option String :=
    (let (ws, r) := cs.span isJsWs
     if ws.isEmpty then none
     else match r with
       | 'C' :: 'T' :: 'A' :: r2 => titleTailEnd r2
       | _ => none)
  let alt (lit : List Char) : Option String :=
    if lit.isPrefixOf cs then titleTailEnd (cs.drop lit.length) else none
  (wsCta.orElse fun _ => (alt ['C', 'T', 'R']).orElse fun _ =>
    (alt ['T', 'M', 'A']).orElse fun _ =>
      (alt ['C', 'L', 'A', 'S', 'S']).orElse fun _ => titleTailEnd cs)

/-- Lazy `(.+?)` loop of the title pattern: shortest non-empty middle
group whose remainder matches the keyword/suffix tail. -/
def titleLazyLoop : Nat → List Char → List Char → Option (List Char × String)
  | 0, _, _ => none
  | _ + 1, _, [] => none
  | fuel + 1, acc, c :: rest =>
    match titleTailMatch rest with
    | some suffix => some (acc ++ [c], suffix)
    | none => titleLazyLoop fuel (acc ++ [c]) rest

/-- Model of the DAH title regex: returns `(code group, raw name group,
suffix group or empty)` on a match of the whole line. -/
def titleMatch (line : String) : Option (String × String × String) :=
  (titleGroup1Candidates line.data).foldr
    (fun (g1, r) acc =>
      (match r with
       | '/' :: r1 =>
         match titleLazyLoop (r1.length + 1) [] r1 with
         | some (g2, suffix) => some (String.mk g1, String.mk g2, suffix)
         | none => none
       | _ => none).orElse fun _ => acc)
    none

/-- Case-insensitive section-header matcher: the keyword words separated
by `\s+`, a colon, then `\s*` dropped; returns the remaining text of the
line. -/
def sectionHeaderRest (words : List (List Char)) (cs : List Char) : Option (List Char) :=
  match words with
  | [] => none
  | w :: ws => go w ws cs
where
  go (w : List Char) (ws : List (List Char)) (cs : List Char) : Option (List Char) :=
    match litCI cs w with
    | none => none
    | some r =>
      match ws with
      | [] =>
        (match r with
         | ':' :: r2 => some (r2.dropWhile isJsWs)
         | _ => none)
      | w2 :: rest =>
        let (sp, r2) := r.span isJsWs
        if sp.isEmpty then none else go w2 rest r2

/-- Matcher for `/^HOURS?\s+OF\s+ACTIVATION:/i` (the `S` is optional). -/
def hoursHeaderRest (cs : List Char) : Option (List Char) :=
  match litCI cs ['H', 'O', 'U', 'R'] with
  | none => none
  | some r =>
    let r := match r with
      | c :: rest => if upperChar c = 'S' then rest else r
      | [] => r
    let (sp, r2) := r.span isJsWs
    if sp.isEmpty then none
    else match litCI r2 ['O', 'F'] with
      | none => none
      | some r3 =>
        let (sp2, r4) := r3.span isJsWs
        if sp2.isEmpty then none
        else match litCI r4 ['A', 'C', 'T', 'I', 'V', 'A', 'T', 'I', 'O', 'N'] with
          | none => none
          | some r5 =>
            match r5 with
            | ':' :: r6 => some (r6.dropWhile isJsWs)
            | _ => none

/-- Model of `dmsToDecimal(degrees, minutes, seconds, direction)`. -/
def dmsToDecimal (degrees minutes seconds : ℚ) (direction : Char) : ℚ :=
  let decimal := qAdd (qAdd degrees (qDiv minutes 60)) (qDiv seconds 3600)
  if direction = 'S' || direction = 'W' then qNeg decimal else decimal

/-- Model of `parseDMSCoordinate(dmsStr, direction)`: strips non-digits,
then reads `DDMMSSS` (7 digits, tenths of seconds) or `DDDMMSSS`
(8 digits); other lengths give `null`. -/
def parseDMSCoordinate (dmsStr : String) (direction : Char) : Option ℚ :=
  let str := dmsStr.data.filter Char.isDigit
  if str.length = 7 then
    some (dmsToDecimal (digitsToNat (str.take 2) : ℚ)
      (digitsToNat ((str.drop 2).take 2) : ℚ)
      (qDiv (digitsToNat ((str.drop 4).take 3) : ℚ) 10) direction)
  else if str.length = 8 then
    some (dmsToDecimal (digitsToNat (str.take 3) : ℚ)
      (digitsToNat ((str.drop 3).take 2) : ℚ)
      (qDiv (digitsToNat ((str.drop 5).take 3) : ℚ) 10) direction)
  else none

/-- Exactly `n` digit characters at the head. -/
def takeDigitsExact (n : Nat) (cs : List Char) : Option (List Char × List Char) :=
  let (ds, rest) := (cs.take n, cs.drop n)
  if ds.length = n && ds.all Char.isDigit then some (ds, rest) else none

/-- Attempt pattern 1 `(\d{7})([NS])?\s+(\d{8})([EW])` at the head. -/
def tryP1At (cs : List Char) : Option ((List Char × Option Char × List Char × Char) × List Char) :=
  match takeDigitsExact 7 cs with
  | none => none
  | some (d7, r1) =>
    let (ns, r2) : Option Char × List Char :=
      match r1 with
      | c :: rest => if c = 'N' || c = 'S' then (some c, rest) else (none, r1)
      | [] => (none, r1)
    let (ws, r3) := r2.span isJsWs
    if ws.isEmpty then none
    else match takeDigitsExact 8 r3 with
      | none => none
      | some (d8, r4) =>
        match r4 with
        | c :: rest => if c = 'E' || c = 'W' then some ((d7, ns, d8, c), rest) else none
        | [] => none

/-- Global scan with pattern 1. -/
def scanP1 : Nat → List Char → List (List Char × Option Char × List Char × Char)
  | 0, _ => []
  | _ + 1, [] => []
  | fuel + 1, l@(_ :: rest) =>
    match tryP1At l with
    | some (m, after) => m :: scanP1 fuel after
    | none => scanP1 fuel rest

/-- Attempt pattern 2 `(\d+)°(\d+)'(\d+)"?([NS])\s+(\d+)°(\d+)'(\d+)"?([EW])`
at the head. -/
def tryP2At (cs : List Char) :
    Option ((Nat × Nat × Nat × Char × Nat × Nat × Nat × Char) × List Char) :=
  let half (endCls : Char → Bool) (cs : List Char) : Option ((Nat × Nat × Nat × Char) × List Char) :=
    let (d1, r1) := cs.span Char.isDigit
    if d1.isEmpty then none
    else match r1 with
      | '°' :: r2 =>
        let (d2, r3) := r2.span Char.isDigit
        if d2.isEmpty then none
        else
          if r3.headD ' ' = Char.ofNat 39 then
            let (d3, r5) := (r3.drop 1).span Char.isDigit
            if d3.isEmpty then none
            else
              let r6 := if r5.headD ' ' = Char.ofNat 34 then r5.drop 1 else r5
              match r6 with
              | c :: rest =>
                if endCls c then some ((digitsToNat d1, digitsToNat d2, digitsToNat d3, c), rest)
                else none
              | [] => none
          else none
      | _ => none
  match half (fun c => c = 'N' || c = 'S') cs with
  | none => none
  | some ((a1, a2, a3, a4), r) =>
    let (ws, r2) := r.span isJsWs
    if ws.isEmpty then none
    else match half (fun c => c = 'E' || c = 'W') r2 with
      | none => none
      | some ((b1, b2, b3, b4), rest) => some ((a1, a2, a3, a4, b1, b2, b3, b4), rest)

/-- Global scan with pattern 2. -/
def scanP2 : Nat → List Char → List (Nat × Nat × Nat × Char × Nat × Nat × Nat × Char)
  | 0, _ => []
  | _ + 1, [] => []
  | fuel + 1, l@(_ :: rest) =>
    match tryP2At l with
    | some (m, after) => m :: scanP2 fuel after
    | none => scanP2 fuel rest

/-- Global scan with pattern 3 `(\d{7})`: a match consumes its seven
characters. -/
def scanP3 : Nat → List Char → List (List Char)
  | 0, _ => []
  | _ + 1, [] => []
  | fuel + 1, l@(_ :: rest) =>
    match takeDigitsExact 7 l with
    | some (d7, after) => d7 :: scanP3 fuel after
    | none => scanP3 fuel rest

/-- The `i += 2` pairing loop over pattern-3 matches (an unpaired last
element is dropped). -/
def pairP3 : List (List Char) → List QPoint
  | a :: b :: rest =>
    (match parseDMSCoordinate (String.mk a) 'S', parseDMSCoordinate (String.mk b) 'E' with
     | some lat, some lon => [{ latitude := lat, longitude := lon }]
     | _, _ => []) ++ pairP3 rest
  | _ => []

/-- Model of `extractCoordinatesFromLine(line, airspace)`: the list of
vertices the call pushes onto the airspace. -/
def extractCoordinatesFromLine (line : String) : List QPoint :=
  let m1 := scanP1 (line.data.length + 1) line.data
  if !m1.isEmpty then
    m1.filterMap (fun m =>
      match parseDMSCoordinate (String.mk m.1) ((m.2.1).getD 'S'),
            parseDMSCoordinate (String.mk m.2.2.1) m.2.2.2 with
      | some lat, some lon => some { latitude := lat, longitude := lon }
      | _, _ => none)
  else
    let m2 := scanP2 (line.data.length + 1) line.data
    if !m2.isEmpty then
      m2.map (fun m =>
        { latitude := dmsToDecimal (m.1 : ℚ) (m.2.1 : ℚ) (m.2.2.1 : ℚ) m.2.2.2.1
          longitude := dmsToDecimal (m.2.2.2.2.1 : ℚ) (m.2.2.2.2.2.1 : ℚ)
            (m.2.2.2.2.2.2.1 : ℚ) m.2.2.2.2.2.2.2 })
    else
      let coords := scanP3 (line.data.length + 1) line.data
      if coords.length ≥ 2 then pairP3 coords else []

/-- Alternation `(SFC|GND|FL\d+|\d+)` (with `i`): returns the matched
slice and the rest, trying alternatives in order with full-continuation
backtracking handled by the caller. -/
def altLower (cs : List Char) : List (List Char × List Char) :=
  (match litCI cs ['S', 'F', 'C'] with
   | some r => [(cs.take 3, r)]
   | none => []) ++
  (match litCI cs ['G', 'N', 'D'] with
   | some r => [(cs.take 3, r)]
   | none => []) ++
  (match litCI cs ['F', 'L'] with
   | some r =>
     let (ds, r2) := r.span Char.isDigit
     if ds.isEmpty then [] else [(cs.take (2 + ds.length), r2)]
   | none => []) ++
  (let (ds, r) := cs.span Char.isDigit
   if ds.isEmpty then [] else [(ds, r)])

/-- Alternation `(UNL|FL\d+|\d+)` (with `i`). -/
def altUpper (cs : List Char) : List (List Char × List Char) :=
  (match litCI cs ['U', 'N', 'L'] with
   | some r => [(cs.take 3, r)]
   | none => []) ++
  (match litCI cs ['F', 'L'] with
   | some r =>
     let (ds, r2) := r.span Char.isDigit
     if ds.isEmpty then [] else [(cs.take (2 + ds.length), r2)]
   | none => []) ++
  (let (ds, r) := cs.span Char.isDigit
   if ds.isEmpty then [] else [(ds, r)])

/-- Attempt the range pattern `(SFC|GND|FL\d+|\d+)\s*-\s*(UNL|FL\d+|\d+)`
at the head. -/
def tryRangeAt (cs : List Char) : Option (String × String) :=
  (altLower cs).foldr
    (fun (slice1, r1) acc =>
      (let r2 := r1.dropWhile isJsWs
       match r2 with
       | '-' :: r3 =>
         let r4 := r3.dropWhile isJsWs
         match altUpper r4 with
         | (slice2, _) :: _ => some (String.mk slice1, String.mk slice2)
         | [] => none
       | _ => none).orElse fun _ => acc)
    none

/-- Leftmost search for the vertical range pattern. -/
def rangeSearchAux : Nat → List Char → Option (String × String)
  | 0, _ => none
  | _ + 1, [] => none
  | fuel + 1, l@(_ :: rest) =>
    match tryRangeAt l with
    | some r => some r
    | none => rangeSearchAux fuel rest

/-- Anchored test `/^(FL\d+|UNL|SFC|GND)/i`. -/
def singleLimitTest (cs : List Char) : Bool :=
  (match litCI cs ['F', 'L'] with
   | some r => !(r.takeWhile Char.isDigit).isEmpty
   | none => false) ||
  (litCI cs ['U', 'N', 'L']).isSome ||
  (litCI cs ['S', 'F', 'C']).isSome ||
  (litCI cs ['G', 'N', 'D']).isSome

/-- Anchored test `/^(SFC|GND)/i`. -/
def sfcGndTest (cs : List Char) : Bool :=
  (litCI cs ['S', 'F', 'C']).isSome || (litCI cs ['G', 'N', 'D']).isSome

/-- Model of `extractVerticalLimits(text, airspace)`: a matched range
sets both limits to the captured slices; otherwise a line starting with
a lone limit keyword assigns the whole text to the matching side. -/
def extractVerticalLimits (text : String) (airspace : DahAirspace) : DahAirspace :=
  match rangeSearchAux (text.data.length + 1) text.data with
  | some (lo, hi) => { airspace with lowerLimit := lo, upperLimit := hi }
  | none =>
    if singleLimitTest text.data then
      if sfcGndTest text.data then { airspace with lowerLimit := text }
      else { airspace with upperLimit := text }
    else airspace

/-- Scan state of `parseAirspaceText`. -/
structure DahScanState where
  airspaces : List DahAirspace
  current : Option DahAirspace
  readingLateralLimits : Bool
  readingVerticalLimits : Bool
deriving Repr

/-- Flush rule: an in-progress record is saved only when it accumulated
at least one boundary. -/
def flushCurrent (airspaces : List DahAirspace) (current : Option DahAirspace) :
    List DahAirspace :=
  match current with
  | some c => if c.boundaries.length > 0 then airspaces ++ [c] else airspaces
  | none => airspaces

/-- One line of `parseAirspaceText`'s scan (lines arrive pre-trimmed). -/
def dahStep (st : DahScanState) (line : String) : DahScanState :=
  if line = "" then st
  else
    match titleMatch line with
    | some (code, rawName, suffix) =>
      let name := jsTrim rawName
      let locations := (jsSplitAny code ['-', '/']).filter (fun l => l.length = 4)
      { airspaces := flushCurrent st.airspaces st.current
        current := some
          { id := jsTrim (code ++ "/" ++ name ++ " " ++ suffix)
            name := jsTrim (name ++ " " ++ suffix)
            locations := locations
            boundaries := []
            upperLimit := "UNL"
            lowerLimit := "GND"
            controllingAuthority := none
            frequencies := []
            hoursOfOperation := none }
        readingLateralLimits := false
        readingVerticalLimits := false }
    | none =>
      match st.current with
      | none => st
      | some c =>
        match sectionHeaderRest [['L', 'A', 'T', 'E', 'R', 'A', 'L'], ['L', 'I', 'M', 'I', 'T', 'S']] line.data with
        | some rest =>
          let coordsOnSameLine := jsTrim (String.mk rest)
          let c :=
            if coordsOnSameLine ≠ "" then
              { c with boundaries := c.boundaries ++ extractCoordinatesFromLine coordsOnSameLine }
            else c
          { st with current := some c, readingLateralLimits := true, readingVerticalLimits := false }
        | none =>
          match sectionHeaderRest [['V', 'E', 'R', 'T', 'I', 'C', 'A', 'L'], ['L', 'I', 'M', 'I', 'T', 'S']] line.data with
          | some rest =>
            let limitsText := jsTrim (String.mk rest)
            { st with current := some (extractVerticalLimits limitsText c)
                      readingLateralLimits := false, readingVerticalLimits := true }
          | none =>
            match hoursHeaderRest line.data with
            | some rest =>
              { st with current := some { c with hoursOfOperation := some (jsTrim (String.mk rest)) }
                        readingLateralLimits := false, readingVerticalLimits := false }
            | none =>
              match sectionHeaderRest [['C', 'O', 'N', 'T', 'R', 'O', 'L', 'L', 'I', 'N', 'G'], ['A', 'U', 'T', 'H', 'O', 'R', 'I', 'T', 'Y']] line.data with
              | some rest =>
                { st with current := some { c with controllingAuthority := some (jsTrim (String.mk rest)) }
                          readingLateralLimits := false, readingVerticalLimits := false }
              | none =>
                let c1 :=
                  if st.readingLateralLimits then
                    { c with boundaries := c.boundaries ++ extractCoordinatesFromLine line }
                  else c
                let c2 :=
                  if st.readingVerticalLimits then extractVerticalLimits line c1 else c1
                { st with current := some c2 }

/-- Model of `parseAirspaceText(text)`. -/
def parseAirspaceText (text : String) : List DahAirspace :=
  let lines := (jsSplit text '\n').map jsTrim
  let st := lines.foldl dahStep
    { airspaces := [], current := none
      readingLateralLimits := false, readingVerticalLimits := false }
  flushCurrent st.airspaces st.current

/-! ## VATGlasses converter (converter.js) -/

/-- Altitude unit of the normalized altitude object. -/
inductive AltUnit where
  | FL
  | FT
deriving DecidableEq, Repr

/-- Altitude reference datum of the normalized altitude object. -/
inductive AltRef where
  | STD
  | AGL
  | AMSL
deriving DecidableEq, Repr

/-- The `{value, unit, reference}` object produced by
`normalizeAltitude`. -/
structure AltValue where
  value : ℤ
  unit : AltUnit
  reference : AltRef
deriving DecidableEq, Repr

/-- Search for `/F?L?(\d+)/`: at each start position the optional `F`
and `L` are tried in the greedy backtracking order, then a non-empty
digit run is captured. -/
def flTryAt (cs : List Char) : Option (List Char) :=
  let digitsOf (r : List Char) : Option (List Char) :=
    let (ds, _) := r.span Char.isDigit
    if ds.isEmpty then none else some ds
  ((match cs with
    | 'F' :: 'L' :: r => digitsOf r
    | _ => none).orElse fun _ =>
   (match cs with
    | 'F' :: r => digitsOf r
    | _ => none).orElse fun _ =>
   (match cs with
    | 'L' :: r => digitsOf r
    | _ => none).orElse fun _ => digitsOf cs)

/-- Leftmost match of `/F?L?(\d+)/` (the captured digits). -/
def flMatchGroup : Nat → List Char → Option (List Char)
  | 0, _ => none
  | _ + 1, [] => none
  | fuel + 1, l@(_ :: rest) =>
    match flTryAt l with
    | some ds => some ds
    | none => flMatchGroup fuel rest

/-- Leftmost match of `/(\d+)\s*(FT|'|FEET|AMSL|AGL)?/` — only the first
capture (the digit run) is ever read by the source. -/
def ftMatchGroup : Nat → List Char → Option (List Char)
  | 0, _ => none
  | _ + 1, [] => none
  | fuel + 1, l@(c :: rest) =>
    if c.isDigit then some (l.takeWhile Char.isDigit)
    else ftMatchGroup fuel rest

/-- Model of `normalizeAltitude(altitude)` on a string input (the
intermediate model stores altitudes as raw strings; the `typeof
altitude === 'object'` passthrough branch concerns already-normalized
objects and is outside the modelled input type). -/
def normalizeAltitude (altitude : String) : AltValue :=
  let altStr := jsTrim (toUpperStr altitude)
  if altStr = "UNL" || altStr = "UNLIMITED" then
    { value := 999, unit := AltUnit.FL, reference := AltRef.STD }
  else if altStr = "GND" || altStr = "GROUND" || altStr = "SFC" then
    { value := 0, unit := AltUnit.FT, reference := AltRef.AGL }
  else
    let ftResult : AltValue :=
      match ftMatchGroup (altStr.data.length + 1) altStr.data with
      | some ds =>
        let isAGL := containsSub altStr "AGL" || containsSub altStr "ABOVE GROUND"
        { value := (digitsToNat ds : ℤ), unit := AltUnit.FT
          reference := if isAGL then AltRef.AGL else AltRef.AMSL }
      | none => { value := 0, unit := AltUnit.FT, reference := AltRef.AMSL }
    match flMatchGroup (altStr.data.length + 1) altStr.data with
    | some ds =>
      if (digitsToNat ds : ℤ) > 180 then
        { value := (digitsToNat ds : ℤ), unit := AltUnit.FL, reference := AltRef.STD }
      else ftResult
    | none => ftResult

/-- The type-normalization lookup table of `normalizeAirspaceType`. -/
def typeMap : List (String × String) :=
  [("CLASS A", "A"), ("CLASS B", "B"), ("CLASS C", "C"), ("CLASS D", "D"),
   ("CLASS E", "E"), ("CLASS F", "F"), ("CLASS G", "G"),
   ("CONTROL ZONE", "CTR"), ("CTR", "CTR"), ("CONTROL AREA", "CTA"),
   ("CTA", "CTA"), ("TERMINAL CONTROL AREA", "TMA"), ("TMA", "TMA"),
   ("RESTRICTED", "R"), ("PROHIBITED", "P"), ("DANGER", "D"), ("MILITARY", "M")]

/-- Model of `normalizeAirspaceType(type)`: falsy input gives `OTHER`;
otherwise table lookup on the uppercased trimmed value with pass-through
fallback. -/
def normalizeAirspaceType (type? : Option String) : String :=
  if !truthyStr type? then "OTHER"
  else
    let upperType := jsTrim (toUpperStr (type?.getD ""))
    match typeMap.find? (fun p => p.1 = upperType) with
    | some p => p.2
    | none => upperType

/-- A coordinate slot of a dynamic input record: a JS number, a string,
or an absent property (`undefined`). -/
inductive CoordIn where
  | num (q : ℚ)
  | str (s : String)
  | undef
deriving DecidableEq, Repr

/-- Rounding to six decimal places as performed by
`parseFloat(x.toFixed(6))` (nearest, ties towards the larger value). -/
def qRound6 (q : ℚ) : ℚ :=
  Rat.divInt (qFloor (qAdd (qMul q 1000000) (Rat.divInt 1 2))) 1000000

/-- Model of `normalizeCoordinate(coord)`: numbers are rounded to six
decimals; other values are coerced to a string and fed to `parseFloat`,
with `NaN` (including the `undefined` coercion) defaulting to 0. -/
def normalizeCoordinate (coord : CoordIn) : ℚ :=
  match coord with
  | CoordIn.num q => qRound6 q
  | CoordIn.str s =>
    match parseFloatPrefix s with
    | some num => qRound6 num
    | none => 0
  | CoordIn.undef => 0

/-- A boundary slot of a dynamic input record: the converter reads the
`latitude`/`longitude` properties, which may be absent. -/
structure BoundaryIn where
  latitude : CoordIn
  longitude : CoordIn
deriving DecidableEq, Repr

/-- A `ParsedAirspace`-shaped dynamic input to `convertAirspace`:
every property may be absent (`none` models `undefined`).  The `cls`
field models the source's `class` property (a reserved word here). -/
structure AirspaceIn where
  id : Option String := none
  name : Option String := none
  type : Option String := none
  upperLimit : Option String := none
  lowerLimit : Option String := none
  boundaries : Option (List BoundaryIn) := none
  conditional : Option Bool := none
  cls : Option String := none
  frequency : Option String := none
deriving DecidableEq, Repr

/-- A rounded `{lat, lon}` output vertex. -/
structure LatLon where
  lat : ℚ
  lon : ℚ
deriving DecidableEq, Repr

/-- The converted VATGlasses airspace record. -/
structure VatAirspace where
  id : String
  name : String
  type : String
  ceiling : Option AltValue
  floor : Option AltValue
  boundaries : List LatLon
  conditional : Option Bool
  cls : Option String
  frequency : Option String
deriving DecidableEq, Repr

/-- Model of `convertAirspace(airspace)` from converter.js.  The impure
`generateId('AIRSPACE')` fallback (timestamp and random suffix) is
abstracted as the `genId` parameter. -/
def convertAirspace (genId : String) (airspace : AirspaceIn) : VatAirspace :=
  { id := jsOrStr airspace.id genId
    name := jsOrStr airspace.name "Unknown Airspace"
    type := normalizeAirspaceType airspace.type
    ceiling :=
      if truthyStr airspace.upperLimit then
        some (normalizeAltitude (airspace.upperLimit.getD ""))
      else none
    floor :=
      if truthyStr airspace.lowerLimit then
        some (normalizeAltitude (airspace.lowerLimit.getD ""))
      else none
    boundaries :=
      match airspace.boundaries with
      | some bs =>
        if bs.length > 0 then
          bs.map (fun b =>
            { lat := normalizeCoordinate b.latitude, lon := normalizeCoordinate b.longitude })
        else []
      | none => []
    conditional := airspace.conditional
    cls := if truthyStr airspace.cls then airspace.cls else none
    frequency := if truthyStr airspace.frequency then airspace.frequency else none }

/-- Reading a converted record back as a `ParsedAirspace`-shaped input:
the JS object produced by `convertAirspace` has no
`upperLimit`/`lowerLimit` properties, and its boundary points carry
`lat`/`lon` keys, so the re-read `latitude`/`longitude` properties are
`undefined`. -/
def vatToInput (v : VatAirspace) : AirspaceIn :=
  { id := some v.id
    name := some v.name
    type := some v.type
    upperLimit := none
    lowerLimit := none
    boundaries := some (v.boundaries.map (fun _ =>
      { latitude := CoordIn.undef, longitude := CoordIn.undef }))
    conditional := v.conditional
    cls := v.cls
    frequency := v.frequency }

/-! ## Validator (converter.js `validateVATGlassesData`) -/

/-- The fields of a position record read by the validator. -/
structure VGPosition where
  callsign : Option String := none
  frequency : Option String := none
deriving DecidableEq, Repr

/-- The fields of an airport record read by the validator. -/
structure VGAirport where
  icao : Option String := none
  coordinates : Option LatLon := none
deriving DecidableEq, Repr

/-- The top-level data object passed to the validator (`none` models an
absent property; present properties are arrays in this typed model, so
the `Array.isArray` error branches cannot fire). -/
structure VGData where
  airspace : Option (List VatAirspace) := none
  positions : Option (List VGPosition) := none
  airports : Option (List VGAirport) := none
deriving Repr

/-- The `{valid, errors, warnings}` result object. -/
structure ValidationResult where
  valid : Bool
  errors : List String
  warnings : List String
deriving DecidableEq, Repr

/-- Model of `validateVATGlassesData(data)`. -/
def validateVATGlassesData (data : VGData) : ValidationResult :=
  let errors : List String :=
    if data.airspace.isNone && data.positions.isNone && data.airports.isNone then
      ["Data must contain at least one of: airspace, positions, or airports"]
    else []
  let airspaceWarnings : List String :=
    match data.airspace with
    | none => []
    | some l =>
      (l.enum).foldr
        (fun (p : Nat × VatAirspace) acc =>
          let (index, a) := p
          (if a.id = "" then ["Airspace at index " ++ Nat.repr index ++ " missing id"] else []) ++
          (if a.name = "" then ["Airspace at index " ++ Nat.repr index ++ " missing name"] else []) ++
          (if a.boundaries.isEmpty then
            ["Airspace " ++ (if a.id ≠ "" then a.id else Nat.repr index) ++ " has no boundaries"]
           else []) ++ acc)
        []
  let positionWarnings : List String :=
    match data.positions with
    | none => []
    | some l =>
      (l.enum).foldr
        (fun (p : Nat × VGPosition) acc =>
          let (index, pos) := p
          (if !truthyStr pos.callsign then ["Position at index " ++ Nat.repr index ++ " missing callsign"] else []) ++
          (if !truthyStr pos.frequency then ["Position at index " ++ Nat.repr index ++ " missing frequency"] else []) ++ acc)
        []
  let airportWarnings : List String :=
    match data.airports with
    | none => []
    | some l =>
      (l.enum).foldr
        (fun (p : Nat × VGAirport) acc =>
          let (index, apt) := p
          (if !truthyStr apt.icao then ["Airport at index " ++ Nat.repr index ++ " missing ICAO code"] else []) ++
          (if apt.coordinates.isNone then ["Airport at index " ++ Nat.repr index ++ " missing coordinates"] else []) ++ acc)
        []
  { valid := errors.isEmpty
    errors := errors
    warnings := airspaceWarnings ++ positionWarnings ++ airportWarnings }

/-! ## Specification-side descriptions and concrete fixtures -/

/-- Specification-side description of one CSV data row: rows whose
parsed field count differs from the header count contribute nothing. -/
def csvRowSpec (headers : List String) (cm : ColumnMap) (p : Nat × String) :
    Option CsvAirspace :=
  let values := parseCSVLine p.2
  if values.length = headers.length then some (buildCsvAirspace headers cm p.1 values)
  else none

/-- Specification-side description of the boundary points contributed to
an id: the concatenation, in row order, of the boundaries of the rows
bearing that id. -/
def collectBoundaries (rows : List CsvAirspace) (id : String) : List CsvBoundary :=
  ((rows.filter (fun r => r.id = id)).map (fun r => r.boundaries)).flatten

/-- Boundary list stored under a key of the grouping object (empty when
the key is absent). -/
def lookupBnd (g : List (String × CsvAirspace)) (k : String) : List CsvBoundary :=
  match g.find? (fun p => p.1 = k) with
  | some p => p.2.boundaries
  | none => []

/-- CSV-row fixture for the merge claim: two `A` rows out of sequence
order, then a `B` row. -/
def c6Rows : List CsvAirspace :=
  [{ id := "A", name := "First", type := "UNKNOWN",
     boundaries := [{ latitude := 10, longitude := 11, sequence := 2 }],
     upperLimit := "UNL", lowerLimit := "GND", conditional := none },
   { id := "A", name := "Second", type := "UNKNOWN",
     boundaries := [{ latitude := 20, longitude := 21, sequence := 1 }],
     upperLimit := "UNL", lowerLimit := "GND", conditional := none },
   { id := "B", name := "Third", type := "UNKNOWN",
     boundaries := [{ latitude := 30, longitude := 31, sequence := 1 }],
     upperLimit := "UNL", lowerLimit := "GND", conditional := none }]

/-- Expected merged record for id `A`: fields from the first `A` row,
boundaries sorted `[seq 1, seq 2]`. -/
def c6MergedA : CsvAirspace :=
  { id := "A", name := "First", type := "UNKNOWN",
    boundaries := [{ latitude := 20, longitude := 21, sequence := 1 },
                   { latitude := 10, longitude := 11, sequence := 2 }],
    upperLimit := "UNL", lowerLimit := "GND", conditional := none }

/-- Expected merged record for id `B`. -/
def c6MergedB : CsvAirspace :=
  { id := "B", name := "Third", type := "UNKNOWN",
    boundaries := [{ latitude := 30, longitude := 31, sequence := 1 }],
    upperLimit := "UNL", lowerLimit := "GND", conditional := none }

/-- DAH-parser fixture text used to witness the non-empty-boundaries
invariant. -/
def c4WitnessText : String := "AAAA/B\nLATERAL LIMITS: 3322225 14822227E"

/-- The record `parseAirspaceText` produces on `c4WitnessText`. -/
def c4WitnessDah : DahAirspace :=
  { id := "AAAA/B", name := "B", locations := ["AAAA"]
    boundaries := [{ latitude := Rat.divInt (-16019) 480
                     longitude := Rat.divInt 5341427 36000 }]
    upperLimit := "UNL", lowerLimit := "GND"
    controllingAuthority := none, frequencies := [], hoursOfOperation := none }

/-- Generic-parser fixture text used to witness the same invariant. -/
def c4WitnessGenText : String := "1 N 2 E"

/-- The record `parseGenericFormat` produces on `c4WitnessGenText`. -/
def c4WitnessGen : PAirspace :=
  { id := "EXTRACTED_AIRSPACE", name := "Extracted from DAH"
    boundaries := [{ latitude := 1, longitude := 2 }]
    upperLimit := "UNL", lowerLimit := "GND" }

/-! # Theorems

Helper lemmas come first; one theorem per claim follows, each marked
with its claim id. -/

/-- Flushing preserves the all-records-have-boundaries invariant: the
in-progress record is appended only under the positive-length guard. -/
theorem flushCurrent_inv {airspaces : List DahAirspace} {cur : Option DahAirspace}
    (h : ∀ a ∈ airspaces, a.boundaries ≠ []) :
    ∀ a ∈ flushCurrent airspaces cur, a.boundaries ≠ [] := by
  cases cur with
  | none => simpa [flushCurrent] using h
  | some c =>
    simp only [flushCurrent]
    split
    · intro a ha
      rcases List.mem_append.1 ha with h1 | h2
      · exact h a h1
      · have hac : a = c := by simpa using h2
        subst hac
        intro hnil
        rename_i hlen
        rw [hnil] at hlen
        simp at hlen
    · exact h

/-- Each scan step either leaves the saved-records list unchanged or
flushes the in-progress record. -/
theorem dahStep_airspaces_cases (st : DahScanState) (line : String) :
    (dahStep st line).airspaces = st.airspaces ∨
      (dahStep st line).airspaces = flushCurrent st.airspaces st.current := by
  unfold dahStep
  split
  · exact Or.inl rfl
  · split
    · exact Or.inr rfl
    · split
      · exact Or.inl rfl
      · split
        · exact Or.inl rfl
        · split
          · exact Or.inl rfl
          · split
            · exact Or.inl rfl
            · split
              · exact Or.inl rfl
              · exact Or.inl rfl

/-- The scan fold preserves the invariant. -/
theorem foldl_dahStep_inv : ∀ (lines : List String) (st : DahScanState),
    (∀ a ∈ st.airspaces, a.boundaries ≠ []) →
    ∀ a ∈ (lines.foldl dahStep st).airspaces, a.boundaries ≠ [] := by
  intro lines
  induction lines with
  | nil => intro st h; simpa using h
  | cons l ls ih =>
    intro st h
    simp only [List.foldl_cons]
    apply ih
    rcases dahStep_airspaces_cases st l with hc | hc
    · rw [hc]; exact h
    · rw [hc]; exact flushCurrent_inv h

/-- C4 (counterexample): the parser.js structured-text strategy flushes
title blocks unconditionally, so the input `"AIRSPACE ALPHA"` — which
the detector itself routes to the structured-text strategy — yields a
record with an empty boundaries sequence, refuting the claim as stated
for that parser. -/
theorem c4_structuredText_empty_counterexample :
    detectFileFormat "AIRSPACE ALPHA" = Format.structuredText ∧
      parseStructuredText "AIRSPACE ALPHA" =
        [{ id := "AIRSPACE", name := "ALPHA", boundaries := [],
           upperLimit := "UNL", lowerLimit := "GND" }] ∧
      (parseStructuredText "AIRSPACE ALPHA").any (fun a => a.boundaries.isEmpty) = true := by
  refine ⟨by decide, by decide, by decide⟩

/-- C4 (amended): for every input text, every record emitted by the
PDF-oriented structured-text parser (`parseAirspaceText`) and by the
generic fallback parser has a non-empty boundaries sequence; a titled
block that accumulates zero coordinates never appears in their output.
(The parser.js `parseStructuredText` variant is excluded: it flushes
boundary-less blocks, see the counterexample.) -/
theorem c4_parsers_nonempty_boundaries : ∀ text : String,
    (∀ a ∈ parseAirspaceText text, a.boundaries ≠ []) ∧
      (∀ a ∈ parseGenericFormat text, a.boundaries ≠ []) := by
  intro text
  constructor
  · intro a ha
    simp only [parseAirspaceText] at ha
    exact flushCurrent_inv (foldl_dahStep_inv _ _ (by simp)) a ha
  · intro a ha
    simp only [parseGenericFormat] at ha
    split at ha
    · rename_i hlen
      have hrec := List.mem_singleton.1 ha
      subst hrec
      exact List.length_pos.mp hlen
    · exact absurd ha (List.not_mem_nil a)

/-- C4 (witness): both universally quantified parts instantiated at
concrete inputs and members. -/
theorem c4_parsers_nonempty_boundaries_witness :
    c4WitnessDah.boundaries ≠ [] ∧ c4WitnessGen.boundaries ≠ [] :=
  ⟨(c4_parsers_nonempty_boundaries c4WitnessText).1 c4WitnessDah (by decide),
   (c4_parsers_nonempty_boundaries c4WitnessGenText).2 c4WitnessGen (by decide)⟩

/-- With duplicate-free keys, `find?` on a member's key returns exactly
that member. -/
theorem find?_of_mem_nodupKeys {g : List (String × CsvAirspace)} {p : String × CsvAirspace}
    (hnd : (g.map Prod.fst).Nodup) (hmem : p ∈ g) :
    g.find? (fun q => q.1 = p.1) = some p := by
  induction g with
  | nil => cases hmem
  | cons h t ih =>
    rcases List.mem_cons.1 hmem with rfl | hmem'
    · simp [List.find?_cons]
    · simp only [List.map_cons, List.nodup_cons] at hnd
      obtain ⟨hnotin, hndt⟩ := hnd
      have hne : ¬(h.1 = p.1) := by
        intro he
        exact hnotin (he ▸ List.mem_map_of_mem Prod.fst hmem')
      rw [List.find?_cons_of_neg _ (by simpa using hne)]
      exact ih hndt hmem'

/-- `find?` on a key commutes with a key-preserving map. -/
theorem find?_map_keyInvariant (f : String × CsvAirspace → String × CsvAirspace)
    (hf : ∀ p, (f p).1 = p.1) (k : String) :
    ∀ g : List (String × CsvAirspace),
      (g.map f).find? (fun q => q.1 = k) = (g.find? (fun q => q.1 = k)).map f := by
  intro g
  induction g with
  | nil => rfl
  | cons h t ih =>
    by_cases hk : h.1 = k
    · simp [List.find?_cons, hf, hk]
    · simp [List.find?_cons, hf, hk, ih]

/-- A key-preserving map leaves the key list unchanged. -/
theorem map_fst_keyInvariant (f : String × CsvAirspace → String × CsvAirspace)
    (hf : ∀ p, (f p).1 = p.1) (g : List (String × CsvAirspace)) :
    (g.map f).map Prod.fst = g.map Prod.fst := by
  rw [List.map_map]
  exact List.map_congr_left (fun p _ => hf p)

/-- Keys after one grouping step: unchanged when the id was present,
extended by the id otherwise. -/
theorem groupStep_keys (g : List (String × CsvAirspace)) (a : CsvAirspace) :
    (groupStep g a).map Prod.fst =
      if (g.find? (fun p => p.1 = a.id)).isSome then g.map Prod.fst
      else g.map Prod.fst ++ [a.id] := by
  have hf : ∀ p : String × CsvAirspace,
      ((fun p => if p.1 = a.id then
          (p.1, { p.2 with boundaries := p.2.boundaries ++ a.boundaries })
        else p) p).1 = p.1 := by
    intro p
    by_cases h : p.1 = a.id <;> simp [h]
  by_cases hs : (g.find? (fun p => p.1 = a.id)).isSome
  · simp only [groupStep, hs, if_true]
    exact map_fst_keyInvariant _ hf g
  · simp only [groupStep, hs, if_false, Bool.false_eq_true]
    rw [map_fst_keyInvariant _ hf]
    simp

/-- One grouping step preserves key uniqueness. -/
theorem groupStep_keys_nodup {g : List (String × CsvAirspace)} {a : CsvAirspace}
    (hnd : (g.map Prod.fst).Nodup) : ((groupStep g a).map Prod.fst).Nodup := by
  rw [groupStep_keys]
  split
  · exact hnd
  · rename_i hs
    have hnotin : a.id ∉ g.map Prod.fst := by
      intro hin
      obtain ⟨p, hp, hpe⟩ := List.mem_map.1 hin
      have hnone := Option.not_isSome_iff_eq_none.1 hs
      have := List.find?_eq_none.1 hnone p hp
      simp only [decide_eq_true_eq] at this
      exact this hpe
    rw [List.nodup_append]
    exact ⟨hnd, List.nodup_singleton _, by
      intro x hx hx2
      rw [List.mem_singleton.1 hx2] at hx
      exact hnotin hx⟩

/-- One grouping step preserves the key-equals-record-id invariant. -/
theorem groupStep_keyId {g : List (String × CsvAirspace)} {a : CsvAirspace}
    (h : ∀ p ∈ g, p.1 = p.2.id) : ∀ p ∈ groupStep g a, p.1 = p.2.id := by
  intro p hp
  simp only [groupStep] at hp
  obtain ⟨q, hq, rfl⟩ := List.mem_map.1 hp
  have hq1 : q.1 = q.2.id := by
    split at hq
    · exact h q hq
    · rcases List.mem_append.1 hq with h1 | h2
      · exact h q h1
      · rw [List.mem_singleton.1 h2]
  by_cases hqa : q.1 = a.id
  · simp only [if_pos hqa]
    simpa using hq1
  · simp only [if_neg hqa]
    exact hq1

/-- Unfolding the per-id collection over a cons cell. -/
theorem collectBoundaries_cons (a : CsvAirspace) (rows : List CsvAirspace) (k : String) :
    collectBoundaries (a :: rows) k =
      (if a.id = k then a.boundaries else []) ++ collectBoundaries rows k := by
  simp only [collectBoundaries, List.filter_cons]
  by_cases h : a.id = k <;> simp [h]

/-- Effect of one grouping step on the boundary list stored under a
key: the stepped row's boundaries are appended exactly under its id. -/
theorem lookupBnd_groupStep (g : List (String × CsvAirspace)) (a : CsvAirspace) (k : String) :
    lookupBnd (groupStep g a) k =
      lookupBnd g k ++ (if a.id = k then a.boundaries else []) := by
  by_cases hs : (g.find? (fun p => p.1 = a.id)).isSome
  · simp only [groupStep, hs, if_true]
    rw [lookupBnd, find?_map_keyInvariant _ (fun p => by by_cases hp : p.1 = a.id <;> simp [hp]) k]
    cases hfind : g.find? (fun q => q.1 = k) with
    | none =>
      by_cases hk : a.id = k
      · rw [hk] at hs
        rw [hfind] at hs
        simp at hs
      · simp [lookupBnd, hfind, hk]
    | some p =>
      have hp1 : p.1 = k := by
        have := List.find?_some hfind
        simpa using this
      by_cases hk : a.id = k
      · simp [lookupBnd, hfind, hk, hp1]
      · have : ¬(p.1 = a.id) := by rw [hp1]; exact fun he => hk he.symm
        simp [lookupBnd, hfind, hk, this]
  · simp only [groupStep, hs, if_false, Bool.false_eq_true]
    rw [lookupBnd, find?_map_keyInvariant _ (fun p => by by_cases hp : p.1 = a.id <;> simp [hp]) k]
    rw [List.find?_append]
    have hnone : g.find? (fun p => p.1 = a.id) = none := Option.not_isSome_iff_eq_none.1 hs
    by_cases hk : a.id = k
    · subst hk
      rw [hnone]
      simp [lookupBnd, hnone]
    · have hsingle : ([(a.id, { a with boundaries := [] })].find? (fun q => q.1 = k)) = none := by
        simp [List.find?_cons, hk]
      rw [hsingle]
      cases hfind : g.find? (fun q => q.1 = k) with
      | none => simp [lookupBnd, hfind, hk]
      | some p =>
        have hp1 : p.1 = k := by
          have := List.find?_some hfind
          simpa using this
        have hpa : ¬(p.1 = a.id) := by rw [hp1]; exact fun he => hk he.symm
        simp [lookupBnd, hfind, hk, hpa]

/-- Main grouping invariant: after folding rows into the grouping
object, every entry's key is its record's id and its boundary list is
the initial contents under that key followed by the concatenation, in
row order, of the boundaries of the rows with that id. -/
theorem groupFold_mem : ∀ (rows : List CsvAirspace) (g : List (String × CsvAirspace)),
    (g.map Prod.fst).Nodup → (∀ p ∈ g, p.1 = p.2.id) →
    ∀ p ∈ rows.foldl groupStep g,
      p.1 = p.2.id ∧ p.2.boundaries = lookupBnd g p.1 ++ collectBoundaries rows p.1 := by
  intro rows
  induction rows with
  | nil =>
    intro g hnd hid p hp
    refine ⟨hid p hp, ?_⟩
    have hfind : g.find? (fun q => q.1 = p.1) = some p := find?_of_mem_nodupKeys hnd hp
    simp [collectBoundaries, lookupBnd, hfind]
  | cons a rows ih =>
    intro g hnd hid p hp
    simp only [List.foldl_cons] at hp
    have h2 := ih (groupStep g a) (groupStep_keys_nodup hnd) (groupStep_keyId hid) p hp
    refine ⟨h2.1, ?_⟩
    rw [h2.2, lookupBnd_groupStep, collectBoundaries_cons, List.append_assoc]

/-- Stable insertion only rearranges. -/
theorem mem_insertLE {key : α → ℤ} {x y : α} :
    ∀ {l : List α}, x ∈ insertLE key y l → x = y ∨ x ∈ l := by
  intro l
  induction l with
  | nil =>
    intro h
    simp only [insertLE, List.mem_singleton] at h
    exact Or.inl h
  | cons z zs ih =>
    intro h
    simp only [insertLE] at h
    split at h
    · rcases List.mem_cons.1 h with rfl | h2
      · exact Or.inr (List.mem_cons_self _ _)
      · rcases ih h2 with h3 | h4
        · exact Or.inl h3
        · exact Or.inr (List.mem_cons_of_mem _ h4)
    · rcases List.mem_cons.1 h with rfl | h2
      · exact Or.inl rfl
      · exact Or.inr h2

/-- The insertion-sort fold only rearranges. -/
theorem mem_foldl_insertLE {key : α → ℤ} {x : α} :
    ∀ (l acc : List α), x ∈ l.foldl (fun acc y => insertLE key y acc) acc → x ∈ acc ∨ x ∈ l := by
  intro l
  induction l with
  | nil => intro acc h; exact Or.inl h
  | cons y ys ih =>
    intro acc h
    simp only [List.foldl_cons] at h
    rcases ih _ h with h1 | h2
    · rcases mem_insertLE h1 with rfl | h3
      · exact Or.inr (List.mem_cons_self _ _)
      · exact Or.inl h3
    · exact Or.inr (List.mem_cons_of_mem _ h2)

/-- The stable sort only rearranges. -/
theorem mem_stableSort {key : α → ℤ} {x : α} {l : List α}
    (h : x ∈ stableSortByKey key l) : x ∈ l := by
  rcases mem_foldl_insertLE l [] h with h1 | h2
  · cases h1
  · exact h2

/-- Own-property reordering only rearranges. -/
theorem mem_jsObjectValuesOrder {g : List (String × CsvAirspace)} {p : String × CsvAirspace}
    (h : p ∈ jsObjectValuesOrder g) : p ∈ g := by
  rcases List.mem_append.1 h with h1 | h2
  · exact (List.mem_filter.1 (mem_stableSort h1)).1
  · exact (List.mem_filter.1 h2).1

/-- C6: after the CSV post-pass, every merged record's boundaries are
the concatenation, in original row order, of the boundary points of all
rows sharing its id, stably sorted ascending by sequence (ties keep
their relative order, as `jsSortBySequence` is a stable insertion sort);
in particular the rows `[(id=A,seq=2),(id=A,seq=1),(id=B,seq=1)]` merge
to an `A` record with boundaries ordered `[seq 1, seq 2]` and a separate
`B` record. -/
theorem c6_merge_groups_and_sorts :
    (∀ (rows : List CsvAirspace), ∀ r ∈ mergeAirspaceBoundaries rows,
        r.boundaries = jsSortBySequence (collectBoundaries rows r.id)) ∧
      mergeAirspaceBoundaries c6Rows = [c6MergedA, c6MergedB] := by
  constructor
  · intro rows r hr
    simp only [mergeAirspaceBoundaries] at hr
    obtain ⟨p, hp, rfl⟩ := List.mem_map.1 hr
    have hpg := mem_jsObjectValuesOrder hp
    have h := groupFold_mem rows [] (by simp) (by simp) p hpg
    have hb : p.2.boundaries = collectBoundaries rows p.1 := by
      simpa [lookupBnd] using h.2
    show jsSortBySequence p.2.boundaries = jsSortBySequence (collectBoundaries rows p.2.id)
    rw [hb, h.1]
  · decide

/-- C6 (witness): the general part instantiated at the example rows and
the merged `A` record. -/
theorem c6_merge_groups_and_sorts_witness :
    c6MergedA.boundaries = jsSortBySequence (collectBoundaries c6Rows c6MergedA.id) :=
  c6_merge_groups_and_sorts.1 c6Rows c6MergedA (by decide)

/-- C1: evaluation of `normalizeAltitude` at the five sample inputs.
The first three mappings hold as claimed; for `"5000FT"` and
`"5000 AGL"` the `/F?L?(\d+)/` pattern (both letters optional) captures
the bare digits and `5000 > 180` routes them to the flight-level
branch, so the code returns `{5000, FL, STD}` instead of the documented
feet results — the feet branch whose own comment cites `"5000FT"` as an
example is unreachable for values above 180. -/
theorem c1_normalizeAltitude_samples :
    normalizeAltitude "UNL" = { value := 999, unit := AltUnit.FL, reference := AltRef.STD } ∧
    normalizeAltitude "GND" = { value := 0, unit := AltUnit.FT, reference := AltRef.AGL } ∧
    normalizeAltitude "FL245" = { value := 245, unit := AltUnit.FL, reference := AltRef.STD } ∧
    normalizeAltitude "5000FT" = { value := 5000, unit := AltUnit.FL, reference := AltRef.STD } ∧
    normalizeAltitude "5000 AGL" = { value := 5000, unit := AltUnit.FL, reference := AltRef.STD } ∧
    normalizeAltitude "5000FT" ≠ { value := 5000, unit := AltUnit.FT, reference := AltRef.AMSL } ∧
    normalizeAltitude "5000 AGL" ≠ { value := 5000, unit := AltUnit.FT, reference := AltRef.AGL } := by
  refine ⟨by decide, by decide, by decide, by decide, by decide, by decide, by decide⟩

/-- C2: `parseCoordinate` on the documented DMS sample
`"33°52'12\"S"` returns 33, not the negated DMS conversion: the
`parseFloat` fast path parses the leading numeric prefix `33` of every
digit-leading DMS token, so the DMS branch (whose own comment cites this
very example) is unreachable for it. -/
theorem c2_parseCoordinate_dms_sample :
    parseCoordinate "33°52'12\"S" = 33 ∧
    -(33 + 52 / 60 + (12 : ℚ) / 3600) ≠ 33 ∧
    parseCoordinate "33°52'12\"S" ≠ -(33 + 52 / 60 + (12 : ℚ) / 3600) := by
  have h : -(33 + 52 / 60 + (12 : ℚ) / 3600) = Rat.divInt (-3387) 100 := by
    rw [Rat.divInt_eq_div]
    norm_num
  refine ⟨by decide, ?_, ?_⟩
  · rw [h]
    decide
  · rw [h]
    decide

/-- C3 (counterexample): the minimal input containing
`"VERTICAL LIMITS: FL100 - FL200"` with no CSV header is classified
`GENERIC`, not `STRUCTURED_TEXT` — the structured-text rule keys only on
the substrings `AIRSPACE`/`Airspace`/`UPPER LIMIT`/`LOWER LIMIT`, none
of which it contains. -/
theorem c3_detector_counterexample :
    detectFileFormat "VERTICAL LIMITS: FL100 - FL200" = Format.generic ∧
      detectFileFormat "VERTICAL LIMITS: FL100 - FL200" ≠ Format.structuredText := by
  exact ⟨by decide, by decide⟩

/-- C3 (amended): the detector maps `"id,name\nA1,Foo"` to CSV,
`"[1,2,3]"` to JSON and `"hello world"` to GENERIC as claimed, but the
input `"VERTICAL LIMITS: FL100 - FL200"` (no CSV header, none of the
four structured-text marker substrings) to GENERIC. -/
theorem c3_detector_samples :
    detectFileFormat "id,name\nA1,Foo" = Format.csv ∧
    detectFileFormat "[1,2,3]" = Format.json ∧
    detectFileFormat "hello world" = Format.generic ∧
    detectFileFormat "VERTICAL LIMITS: FL100 - FL200" = Format.generic := by
  refine ⟨by decide, by decide, by decide, by decide⟩

/-- C5: the three-line structured sample parses to exactly one airspace
with locations `["YBBB"]`, one boundary at exactly
`(-(33 + 22/60 + 22.5/3600), 148 + 22/60 + 22.7/3600)`, lower limit
`"FL180"` and upper limit `"FL245"`. -/
theorem c5_structured_sample :
    parseAirspaceText
        "YBBB/BRISBANE CTA A1\nLATERAL LIMITS: 3322225 14822227E\nVERTICAL LIMITS: FL180 - FL245" =
      [{ id := "YBBB/BRISBANE A1", name := "BRISBANE A1", locations := ["YBBB"]
         boundaries := [{ latitude := -(33 + 22 / 60 + (22.5 : ℚ) / 3600)
                          longitude := 148 + 22 / 60 + (22.7 : ℚ) / 3600 }]
         upperLimit := "FL245", lowerLimit := "FL180"
         controllingAuthority := none, frequencies := [], hoursOfOperation := none }] := by
  have h1 : -(33 + 22 / 60 + (22.5 : ℚ) / 3600) = Rat.divInt (-16019) 480 := by
    rw [Rat.divInt_eq_div]
    norm_num
  have h2 : 148 + 22 / 60 + (22.7 : ℚ) / 3600 = Rat.divInt 5341427 36000 := by
    rw [Rat.divInt_eq_div]
    norm_num
  rw [h1, h2]
  decide

/-- The CSV row loop with its `continue` equals a filterMap over the
1-based enumeration of the data lines: mismatched rows are dropped,
never reported. -/
theorem csvLoop_eq_filterMap (headers : List String) (cm : ColumnMap) :
    ∀ (ls : List String) (i : Nat),
      csvLoop headers cm i ls = (List.enumFrom i ls).filterMap (csvRowSpec headers cm) := by
  intro ls
  induction ls with
  | nil => intro i; rfl
  | cons l t ih =>
    intro i
    simp only [csvLoop, List.enumFrom_cons, List.filterMap_cons, csvRowSpec]
    by_cases h : (parseCSVLine l).length = headers.length
    · simp [h, ih]
    · simp [h, ih]

/-- C7: the CSV parser raises its `FormatError` exactly when fewer than
2 lines remain after filtering blanks; on every other input it returns
normally, and the returned airspaces are built from exactly those data
rows whose parsed field count equals the header count — mismatched rows
are silently skipped. -/
theorem c7_parseCSV_error_iff_and_skips :
    ∀ content : String,
      parseCSVFormat content =
        if 2 ≤ (csvNonBlankLines content).length then
          Except.ok ⟨mergeAirspaceBoundaries
            ((List.enumFrom 1 ((csvNonBlankLines content).drop 1)).filterMap
              (csvRowSpec (csvHeaders (csvNonBlankLines content))
                (mapColumnNames (csvHeaders (csvNonBlankLines content)))))⟩
        else Except.error "CSV file must have headers and at least one data row" := by
  intro content
  simp only [parseCSVFormat]
  by_cases h : (csvNonBlankLines content).length < 2
  · rw [if_pos h, if_neg (by omega)]
  · rw [if_neg h, if_pos (by omega), csvLoop_eq_filterMap]

/-- C8: `parseCoordinate` is a total function (it is defined for every
string and returns a rational, never throwing), and when the trimmed
input is accepted by neither the `parseFloat` prefix lexer nor the DMS
pattern it returns 0. -/
theorem c8_parseCoordinate_total (s : String)
    (h1 : parseFloatPrefix (jsTrim s) = none) (h2 : dmsSearch (jsTrim s) = none) :
    parseCoordinate s = 0 := by
  simp only [parseCoordinate, h1, h2]

/-- C8 (witness): the unparseable input `"N/A"` satisfies both
hypotheses and maps to 0. -/
theorem c8_parseCoordinate_total_witness :
    parseFloatPrefix (jsTrim "N/A") = none ∧ dmsSearch (jsTrim "N/A") = none ∧
      parseCoordinate "N/A" = 0 :=
  ⟨by decide, by decide, c8_parseCoordinate_total "N/A" (by decide) (by decide)⟩

/-- C9: re-applying `convertAirspace` to a record it produced (read back
as a `ParsedAirspace`-shaped input) is total in the model — every
dynamic property access is defined, with the re-read
`latitude`/`longitude` properties absent and defaulting to 0 — and the
validator accepts the re-converted record with no errors. -/
theorem c9_reconvert_valid :
    ∀ (genId1 genId2 : String) (a : AirspaceIn),
      (validateVATGlassesData
          { airspace := some [convertAirspace genId2 (vatToInput (convertAirspace genId1 a))] }).valid
          = true ∧
      (validateVATGlassesData
          { airspace := some [convertAirspace genId2 (vatToInput (convertAirspace genId1 a))] }).errors
          = [] ∧
      (convertAirspace genId2 (vatToInput (convertAirspace genId1 a))).boundaries =
        (convertAirspace genId1 a).boundaries.map (fun _ => { lat := 0, lon := 0 }) := by
  intro g1 g2 a
  refine ⟨by simp [validateVATGlassesData], by simp [validateVATGlassesData], ?_⟩
  have key : ∀ v : VatAirspace,
      (convertAirspace g2 (vatToInput v)).boundaries =
        v.boundaries.map (fun _ => ({ lat := 0, lon := 0 } : LatLon)) := by
    intro v
    cases hv : v.boundaries with
    | nil => simp [convertAirspace, vatToInput, hv]
    | cons x xs => simp [convertAirspace, vatToInput, hv, normalizeCoordinate, List.map_map]
  exact key (convertAirspace g1 a)

/-- C10: the input `"id,name\n"` (a comma-containing header line
followed by a blank line) is classified CSV by the detector, yet the CSV
parser raises its `FormatError` on it, so CSV classification does not
guarantee CSV parsing success. -/
theorem c10_detect_parse_mismatch :
    detectFileFormat "id,name\n" = Format.csv ∧
      parseCSVFormat "id,name\n" =
        Except.error "CSV file must have headers and at least one data row" := by
  exact ⟨by decide, rfl⟩

end Dah
